import Mathlib

/-!
Verification development for the `cloud_zip` repository (`src/main.rs`).

The program builds an index of a ZIP archive's members (name, sizes,
directory flag, payload offset), persists it as a CBOR blob, and extracts a
single member either from a local archive file (seek + bounded read) or from
a remote object (single byte-range request), inflating the bounded
compressed slice into an output file at a derived path.

Modelling conventions:
* Byte strings, entry names and filesystem paths are `List Nat` (the Rust
  code works on UTF-8 byte buffers; we never need character structure).
* Rust `u64` values are modelled as `Nat`; theorems that depend on byte-level
  serialization carry explicit `< 2^64` bounds where they matter.
* The output filesystem is a map from paths to file contents; `File::create`
  truncates, writes replace the file content.
* A Rust panic (`.unwrap()` on an error) is the `ExtractResult.abort` outcome:
  the process aborts, no error value is returned to the caller.
* The raw-deflate decoder (`flate2::read::DeflateDecoder` + `io::copy`) is an
  external collaborator; the extractors are parametrized by a function
  `inflate : Str → Str × Bool` returning the bytes written to the output sink
  and whether decompression succeeded (on failure `io::copy` has already
  written the partial output).
-/

/-- Byte strings: file contents, entry names, paths. -/
abbrev Str := List Nat

/-- Output filesystem: maps a path to the content of the file stored there. -/
abbrev FS := Str → Option Str

/-- Writing a file: the path now holds exactly `v`. -/
def fsUpdate (fs : FS) (p : Str) (v : Str) : FS :=
  fun q => if q = p then some v else fs q

/-- The `FileMetadata` struct of `src/main.rs`: one index entry. -/
structure FileMetadata where
  file_name : Str
  uncompressed_size : Nat
  compressed_size : Nat
  is_directory : Bool
  file_offset : Nat
deriving DecidableEq

/-- Big-endian byte encoding of `n` on `k` bytes (truncating above `2^(8k)`). -/
def natBytesBE (n : Nat) : Nat → Str
  | 0 => []
  | k + 1 => natBytesBE (n / 256) k ++ [n % 256]

/-- Big-endian value of a byte string. -/
def readBE (ds : Str) : Nat :=
  ds.foldl (fun a b => a * 256 + b) 0

/-- Modelled from the spec: the Index Store's self-describing binary blob is
serde_cbor CBOR. `cborHead major v` is the minimal-length CBOR head with the
given major type and argument `v`, as serde_cbor's serializer emits it. -/
def cborHead (major v : Nat) : Str :=
  if v < 24 then [major * 32 + v]
  else if v < 256 then [major * 32 + 24] ++ natBytesBE v 1
  else if v < 65536 then [major * 32 + 25] ++ natBytesBE v 2
  else if v < 4294967296 then [major * 32 + 26] ++ natBytesBE v 4
  else [major * 32 + 27] ++ natBytesBE v 8

/-- CBOR text string (major type 3): head plus the raw UTF-8 bytes. -/
def encodeText (s : Str) : Str :=
  cborHead 3 s.length ++ s

/-- CBOR booleans: the simple values `0xf5` / `0xf4`. -/
def encodeBool (b : Bool) : Str :=
  if b then [245] else [244]

/-- Bytes of the field key `"file_name"`. -/
def keyFileName : Str := [102, 105, 108, 101, 95, 110, 97, 109, 101]

/-- Bytes of the field key `"uncompressed_size"`. -/
def keyUncompressedSize : Str :=
  [117, 110, 99, 111, 109, 112, 114, 101, 115, 115, 101, 100, 95, 115, 105, 122, 101]

/-- Bytes of the field key `"compressed_size"`. -/
def keyCompressedSize : Str :=
  [99, 111, 109, 112, 114, 101, 115, 115, 101, 100, 95, 115, 105, 122, 101]

/-- Bytes of the field key `"is_directory"`. -/
def keyIsDirectory : Str := [105, 115, 95, 100, 105, 114, 101, 99, 116, 111, 114, 121]

/-- Bytes of the field key `"file_offset"`. -/
def keyFileOffset : Str := [102, 105, 108, 101, 95, 111, 102, 102, 115, 101, 116]

/-- Modelled from the spec: serde_cbor serializes the `FileMetadata` struct as
a definite-length CBOR map of its five fields, text keys in declaration
order. -/
def encodeMeta (m : FileMetadata) : Str :=
  cborHead 5 5
    ++ encodeText keyFileName ++ encodeText m.file_name
    ++ encodeText keyUncompressedSize ++ cborHead 0 m.uncompressed_size
    ++ encodeText keyCompressedSize ++ cborHead 0 m.compressed_size
    ++ encodeText keyIsDirectory ++ encodeBool m.is_directory
    ++ encodeText keyFileOffset ++ cborHead 0 m.file_offset

/-- Modelled from the spec: serde_cbor serializes `Vec<FileMetadata>` as a
definite-length CBOR array of the encoded structs. -/
def encodeMetadataList (l : List FileMetadata) : Str :=
  cborHead 4 l.length ++ (l.map encodeMeta).flatten

/-- Parse a CBOR head of the given major type, returning its argument and the
remaining bytes. -/
def parseHead (major : Nat) (s : Str) : Option (Nat × Str) :=
  match s with
  | [] => none
  | b :: rest =>
    if b / 32 = major then
      let ai := b % 32
      if ai < 24 then some (ai, rest)
      else if ai ≤ 27 then
        let k := 2 ^ (ai - 24)
        if k ≤ rest.length then some (readBE (rest.take k), rest.drop k) else none
      else none
    else none

/-- Parse a CBOR text string: head plus its payload bytes. -/
def parseText (s : Str) : Option (Str × Str) :=
  match parseHead 3 s with
  | none => none
  | some (n, r) => if n ≤ r.length then some (r.take n, r.drop n) else none

/-- Parse a CBOR boolean simple value. -/
def parseBool (s : Str) : Option (Bool × Str) :=
  match s with
  | 245 :: r => some (true, r)
  | 244 :: r => some (false, r)
  | _ => none

/-- Parse a CBOR text string and require it to be the expected field key. -/
def parseKey (expected : Str) (s : Str) : Option Str :=
  match parseText s with
  | none => none
  | some (k, r) => if k = expected then some r else none

/-- Modelled from the spec: serde_cbor deserialization of one `FileMetadata`
map (the shape the serializer emits; anything else is malformed). -/
def parseMeta (s : Str) : Option (FileMetadata × Str) := do
  let (n, r0) ← parseHead 5 s
  if n = 5 then
    let r1 ← parseKey keyFileName r0
    let (nm, r2) ← parseText r1
    let r3 ← parseKey keyUncompressedSize r2
    let (us, r4) ← parseHead 0 r3
    let r5 ← parseKey keyCompressedSize r4
    let (cs, r6) ← parseHead 0 r5
    let r7 ← parseKey keyIsDirectory r6
    let (dir, r8) ← parseBool r7
    let r9 ← parseKey keyFileOffset r8
    let (off, r10) ← parseHead 0 r9
    pure ({ file_name := nm, uncompressed_size := us, compressed_size := cs,
            is_directory := dir, file_offset := off }, r10)
  else none

/-- Parse exactly `n` consecutive `FileMetadata` maps. -/
def parseMetas : Nat → Str → Option (List FileMetadata × Str)
  | 0, s => some ([], s)
  | n + 1, s => do
    let (m, r) ← parseMeta s
    let (ms, r2) ← parseMetas n r
    pure (m :: ms, r2)

/-- Modelled from the spec: `serde_cbor::from_reader` for `Vec<FileMetadata>`.
It fails on malformed input and on trailing bytes after the top-level value
(serde_cbor checks that the reader is exhausted). -/
def decodeMetadataList (s : Str) : Option (List FileMetadata) := do
  let (n, r) ← parseHead 4 s
  let (l, rest) ← parseMetas n r
  if rest = [] then pure l else none

/-- File write as performed by `save_central_directory_with_offsets`:
`OpenOptions::new().create(true).write(true)` does NOT truncate, so the blob
is written from position 0 and any previous content longer than the blob
keeps its tail. `prev` is the file content before the save (`none`: no file). -/
def writeNoTruncate (prev : Option Str) (blob : Str) : Str :=
  match prev with
  | none => blob
  | some old => blob ++ old.drop blob.length

/-- One central-directory record of the archive, as enumerated by
`ZipArchive` (name, sizes, directory flag, local-header start offset). -/
structure CDRecord where
  name : Str
  uncompressed_size : Nat
  compressed_size : Nat
  is_directory : Bool
  header_start : Nat
deriving DecidableEq

/-- Little-endian value of a byte string. -/
def readLE (ds : Str) : Nat :=
  ds.foldr (fun b a => a * 256 + b) 0

/-- The `len` bytes of `bytes` starting at `pos` (shorter near the end). -/
def sliceBytes (bytes : Str) (pos len : Nat) : Str :=
  (bytes.drop pos).take len

/-- Fields of a ZIP local file header relevant to offset resolution. -/
structure LocalHeader where
  compressed_size : Nat
  uncompressed_size : Nat
  nameLen : Nat
  extraLen : Nat
  name : Str
deriving DecidableEq

/-- Modelled from the spec: parsing a member's local file header at `pos`
(the `zip` crate reads it to resolve the payload offset). Signature
`PK\x03\x04`, compressed size at 18, uncompressed size at 22, name length at
26, extra-field length at 28, all little-endian; the name follows the fixed
30-byte header. Fails when the signature is wrong or the header overruns the
archive. -/
def parseLocalHeader (bytes : Str) (pos : Nat) : Option LocalHeader :=
  if sliceBytes bytes pos 4 = [80, 75, 3, 4] then
    let nl := readLE (sliceBytes bytes (pos + 26) 2)
    let el := readLE (sliceBytes bytes (pos + 28) 2)
    if pos + 30 + nl + el ≤ bytes.length then
      some { compressed_size := readLE (sliceBytes bytes (pos + 18) 4),
             uncompressed_size := readLE (sliceBytes bytes (pos + 22) 4),
             nameLen := nl, extraLen := el,
             name := sliceBytes bytes (pos + 30) nl }
    else none
  else none

/-- Modelled from the spec: `archive.by_index(i)` for the `i`-th directory
record — reads the member's local header to compute
`data_start = header_start + 30 + name_length + extra_field_length`; a member
whose header cannot be parsed yields `none` (and is dropped by the builder's
`filter_map`). -/
def by_index (bytes : Str) (r : CDRecord) : Option FileMetadata :=
  match parseLocalHeader bytes r.header_start with
  | none => none
  | some lh =>
    some { file_name := r.name,
           uncompressed_size := r.uncompressed_size,
           compressed_size := r.compressed_size,
           is_directory := r.is_directory,
           file_offset := r.header_start + 30 + lh.nameLen + lh.extraLen }

/-- The index-building loop of `save_central_directory_with_offsets`
(lines 61–78): `(0..archive.len()).filter_map(|i| archive.by_index(i).ok()?…)`. -/
def build_index (bytes : Str) (cd : List CDRecord) : List FileMetadata :=
  cd.filterMap (by_index bytes)

/-- The whole of `save_central_directory_with_offsets`: `cdOpt` is the result
of locating the archive's central directory (`ZipArchive::new`; `none` means
the top-level structure could not be located, and the error propagates via
`?`). On success the index is built over the readable members and written to
the metadata file without truncation; the result is the new metadata-file
content. -/
def save_central_directory_with_offsets (bytes : Str) (cdOpt : Option (List CDRecord))
    (prevMeta : Option Str) : Option Str :=
  match cdOpt with
  | none => none
  | some cd => some (writeNoTruncate prevMeta (encodeMetadataList (build_index bytes cd)))

/-- Modelled from the spec: a single S3 `GetObject` with an inclusive byte
range `start-endIncl`. `net = false` is a transport failure, a missing object
is `NoSuchKey`, and a start at or past the object's end is HTTP 416; the
server clamps the end of the range to the object size. -/
def download_bytes (net : Bool) (object : Option Str) (start endIncl : Nat) : Option Str :=
  if net then
    match object with
    | none => none
    | some bytes =>
      if start < bytes.length then
        some ((bytes.drop start).take (endIncl + 1 - start))
      else none
  else none

/-- Kinds of `io::Error` the extractors construct and return. -/
inductive ErrKind where
  | notFound
  | invalidInput
  | other
deriving DecidableEq

/-- Outcome of one extraction call. `abort` models a Rust panic from
`.unwrap()`: the process aborts and no error value reaches the caller. -/
inductive ExtractResult where
  | ok
  | err (k : ErrKind)
  | abort
deriving DecidableEq

/-- Bytes of the output-path prefix `"extracted_"`. -/
def outBase : Str := [101, 120, 116, 114, 97, 99, 116, 101, 100, 95]

/-- `extract_file_from_local_zip` (lines 87–125). `zipBytes` is the content of
the local archive file (`none`: the file does not exist), `metadataBytes` the
content of the index file. Steps, in source order: open archive, open
metadata file, deserialize (`unwrap` — panic on malformed blob), look up the
entry by name, create (truncate) the output file at `"extracted_" ++ name`,
seek to `file_offset`, bound the stream with `take(compressed_size)`, inflate
into the output file. -/
def extract_file_from_local_zip (inflate : Str → Str × Bool) (zipBytes : Option Str)
    (file_name : Str) (metadataBytes : Option Str) (fs : FS) : ExtractResult × FS :=
  match zipBytes with
  | none => (.err .notFound, fs)
  | some zbytes =>
    match metadataBytes with
    | none => (.err .notFound, fs)
    | some mbytes =>
      match decodeMetadataList mbytes with
      | none => (.abort, fs)
      | some list =>
        match list.find? (fun m => m.file_name == file_name) with
        | none => (.err .notFound, fs)
        | some meta =>
          let output_file_path := outBase ++ file_name
          let fs1 := fsUpdate fs output_file_path []
          let compressed := (zbytes.drop meta.file_offset).take meta.compressed_size
          let r := inflate compressed
          let fs2 := fsUpdate fs1 output_file_path r.1
          (if r.2 then .ok else .err .other, fs2)

/-- `extract_file_from_cloud_zip` (lines 127–163). Same lookup and output-file
creation as the local path, then one range request
`bytes=file_offset-(file_offset+compressed_size)` (`unwrap` — panic on any
download failure), `take(compressed_size)` on the fetched bytes, inflate into
the output file. The third component of the result collects the issued range
requests. -/
def extract_file_from_cloud_zip (inflate : Str → Str × Bool) (net : Bool)
    (object : Option Str) (file_name : Str) (metadataBytes : Option Str) (fs : FS) :
    ExtractResult × FS × List (Nat × Nat) :=
  match metadataBytes with
  | none => (.err .notFound, fs, [])
  | some mbytes =>
    match decodeMetadataList mbytes with
    | none => (.abort, fs, [])
    | some list =>
      match list.find? (fun m => m.file_name == file_name) with
      | none => (.err .notFound, fs, [])
      | some meta =>
        let output_file_path := outBase ++ file_name
        let fs1 := fsUpdate fs output_file_path []
        let rangeStart := meta.file_offset
        let rangeEnd := meta.file_offset + meta.compressed_size
        match download_bytes net object rangeStart rangeEnd with
        | none => (.abort, fs1, [(rangeStart, rangeEnd)])
        | some fetched =>
          let compressed := fetched.take meta.compressed_size
          let r := inflate compressed
          let fs2 := fsUpdate fs1 output_file_path r.1
          (if r.2 then .ok else .err .other, fs2, [(rangeStart, rangeEnd)])

/-- Identity stand-in for the external deflate decoder, used in concrete runs. -/
def inflId : Str → Str × Bool := fun s => (s, true)

/-- Empty output filesystem for concrete runs. -/
def fs0 : FS := fun _ => none

/-- Concrete archive: one member named `"a"` (byte `97`) with a valid local
header at offset 0, compressed size 5, uncompressed size 7, no extra field,
followed by its 5 payload bytes. -/
def arch0 : Str :=
  [80, 75, 3, 4] ++ List.replicate 14 0 ++ [5, 0, 0, 0] ++ [7, 0, 0, 0]
    ++ [1, 0] ++ [0, 0] ++ [97] ++ [9, 8, 7, 6, 5]

/-- Central-directory record of the single member of `arch0`. -/
def rec0 : CDRecord := ⟨[97], 7, 5, false, 0⟩

/-- The local header of `arch0`'s member, as `parseLocalHeader` reads it. -/
def lh0 : LocalHeader := ⟨5, 7, 1, 0, [97]⟩

/-- The index entry the builder produces for `arch0`'s member. -/
def meta0 : FileMetadata := ⟨[97], 7, 5, false, 31⟩

/-- Concrete index entry (name `"a"`). -/
def metaA : FileMetadata := ⟨[97], 11, 5, false, 31⟩

/-- Concrete directory index entry (name `"dir/"`). -/
def metaB : FileMetadata := ⟨[100, 105, 114, 47], 0, 0, true, 30⟩

/-- Concrete index entry (name `"c.txt"`). -/
def metaC : FileMetadata := ⟨[99, 46, 116, 120, 116], 20, 10, false, 100⟩

/-- Concrete index entry (name `"a"`, payload at bytes 1–2 of `arch1`). -/
def meta1 : FileMetadata := ⟨[97], 2, 2, false, 1⟩

/-- Concrete three-byte archive for extraction runs. -/
def arch1 : Str := [10, 20, 30]

/-- Default entry used only to state the filter/map characterization of
`List.filterMap`. -/
def mdefault : FileMetadata := ⟨[], 0, 0, false, 0⟩

theorem fsUpdate_self (fs : FS) (p v : Str) : fsUpdate fs p v p = some v := by
  simp [fsUpdate]

theorem filterMap_as_filter_map {α β : Type} (f : α → Option β) (d : β) (l : List α) :
    l.filterMap f = (l.filter (fun a => (f a).isSome)).map (fun a => (f a).getD d) := by
  induction l with
  | nil => rfl
  | cons a t ih =>
    cases h : f a with
    | none => simp [List.filterMap_cons, List.filter_cons, h, ih]
    | some b => simp [List.filterMap_cons, List.filter_cons, h, ih]

theorem download_bytes_true_lt {b : Str} {s e : Nat} (h : s < b.length) :
    download_bytes true (some b) s e = some ((b.drop s).take (e + 1 - s)) := by
  simp [download_bytes, h]

/-- C1: for every index and entry name present in it, if the remote object's
bytes equal the local archive file's bytes, local and remote extraction of
that name write identical output bytes to the derived output path
`"extracted_" ++ name`. The hypothesis `hoff` is the data-model invariant
that the entry's payload starts inside the archive (otherwise the remote
range request is rejected outright by the object store). -/
theorem c1_local_remote_equiv (inflate : Str → Str × Bool) (b mbytes name : Str)
    (l : List FileMetadata) (meta : FileMetadata) (fs : FS)
    (hdec : decodeMetadataList mbytes = some l)
    (hfind : l.find? (fun m => m.file_name == name) = some meta)
    (hoff : meta.file_offset < b.length) :
    (extract_file_from_local_zip inflate (some b) name (some mbytes) fs).2 (outBase ++ name)
      = (extract_file_from_cloud_zip inflate true (some b) name (some mbytes) fs).2.1
          (outBase ++ name) := by
  have hslice :
      ((b.drop meta.file_offset).take (meta.file_offset + meta.compressed_size + 1
          - meta.file_offset)).take meta.compressed_size
        = (b.drop meta.file_offset).take meta.compressed_size := by
    rw [List.take_take]
    congr 1
    omega
  simp only [extract_file_from_local_zip, extract_file_from_cloud_zip, hdec, hfind,
    download_bytes_true_lt hoff, hslice]

/-- Witness for C1 at a concrete archive, index and decoder. -/
theorem c1_local_remote_equiv_witness :
    decodeMetadataList (encodeMetadataList [meta1]) = some [meta1] ∧
    [meta1].find? (fun m => m.file_name == [97]) = some meta1 ∧
    meta1.file_offset < arch1.length ∧
    (extract_file_from_local_zip inflId (some arch1) [97]
        (some (encodeMetadataList [meta1])) fs0).2 (outBase ++ [97])
      = (extract_file_from_cloud_zip inflId true (some arch1) [97]
          (some (encodeMetadataList [meta1])) fs0).2.1 (outBase ++ [97]) :=
  ⟨by decide, by decide, by decide,
   c1_local_remote_equiv inflId arch1 (encodeMetadataList [meta1]) [97] [meta1] meta1 fs0
     (by decide) (by decide) (by decide)⟩

/-- C2: for every non-directory entry the builder produces, the recorded
`file_offset` equals `header_start + 30 + name_length + extra_field_length`
(the fixed local-header size is 30 bytes); and, whenever the local header
agrees with the central-directory record (a well-formed archive), reparsing
the local header at `file_offset - (name_length + extra_length + 30)`
reconstructs the same name and sizes recorded in the entry. -/
theorem c2_data_offset (bytes : Str) (r : CDRecord) (meta : FileMetadata) (lh : LocalHeader)
    (_hdir : meta.is_directory = false)
    (hparse : parseLocalHeader bytes r.header_start = some lh)
    (hbi : by_index bytes r = some meta) :
    meta.file_offset = r.header_start + 30 + lh.nameLen + lh.extraLen ∧
    (lh.name = r.name → lh.compressed_size = r.compressed_size →
      lh.uncompressed_size = r.uncompressed_size →
      parseLocalHeader bytes (meta.file_offset - (meta.file_name.length + lh.extraLen + 30))
          = some lh ∧
      lh.name = meta.file_name ∧ lh.compressed_size = meta.compressed_size ∧
      lh.uncompressed_size = meta.uncompressed_size) := by
  have hlen : lh.name.length = lh.nameLen := by
    simp only [parseLocalHeader, sliceBytes] at hparse
    split at hparse
    · split at hparse
      · rename_i h2
        simp only [Option.some.injEq] at hparse
        rw [← hparse]
        simp only [List.length_take, List.length_drop]
        omega
      · exact absurd hparse (by simp)
    · exact absurd hparse (by simp)
  simp only [by_index, hparse, Option.some.injEq] at hbi
  rw [← hbi]
  refine ⟨rfl, ?_⟩
  intro hn hc hu
  have hpos : (r.header_start + 30 + lh.nameLen + lh.extraLen)
      - (r.name.length + lh.extraLen + 30) = r.header_start := by
    have : r.name.length = lh.nameLen := by rw [← hn, hlen]
    omega
  simp only [hpos]
  exact ⟨hparse, hn.symm ▸ rfl, hc.symm ▸ rfl, hu.symm ▸ rfl⟩

/-- Witness for C2 on the concrete one-member archive `arch0`. -/
theorem c2_data_offset_witness :
    by_index arch0 rec0 = some meta0 ∧
    meta0.file_offset = rec0.header_start + 30 + lh0.nameLen + lh0.extraLen ∧
    parseLocalHeader arch0 (meta0.file_offset - (meta0.file_name.length + lh0.extraLen + 30))
      = some lh0 :=
  ⟨by decide,
   (c2_data_offset arch0 rec0 meta0 lh0 (by decide) (by decide) (by decide)).1,
   ((c2_data_offset arch0 rec0 meta0 lh0 (by decide) (by decide) (by decide)).2
     (by decide) (by decide) (by decide)).1⟩

set_option maxRecDepth 10000 in
/-- C3: the save/load round trip is broken by the missing truncation. Saving
the one-entry index built from `arch0` over a metadata file that previously
held a longer (two-entry) blob leaves the old blob's tail after the new
blob, and loading then fails (and the program's `unwrap` aborts the process)
instead of reproducing the one-entry sequence. -/
theorem c3_roundtrip_broken_by_stale_tail :
    save_central_directory_with_offsets arch0 (some [rec0])
        (some (encodeMetadataList [metaA, metaB]))
      = some (writeNoTruncate (some (encodeMetadataList [metaA, metaB]))
          (encodeMetadataList [meta0])) ∧
    decodeMetadataList (writeNoTruncate (some (encodeMetadataList [metaA, metaB]))
        (encodeMetadataList [meta0])) = none := by
  exact ⟨by decide, by decide⟩

/-- C4 counterexample: with a malformed index blob (`[0xFF]`), the local
extractor's `serde_cbor::from_reader(..).unwrap()` panics — the run aborts
(`abort`), no `DecodeError`-style error value is returned to the caller, so
the claim that the failure is a recoverable result is false. -/
theorem c4_counterexample_malformed_blob_aborts :
    (extract_file_from_local_zip inflId (some []) [97] (some [255]) fs0).1 = .abort ∧
    (extract_file_from_local_zip inflId (some []) [97] (some [255]) fs0).1 ≠ .err .notFound ∧
    (extract_file_from_local_zip inflId (some []) [97] (some [255]) fs0).1 ≠ .err .invalidInput ∧
    (extract_file_from_local_zip inflId (some []) [97] (some [255]) fs0).1 ≠ .err .other := by
  exact ⟨by decide, by decide, by decide, by decide⟩

/-- C4 amended: loading from a nonexistent index path yields a `NotFound`
error result, but a malformed index blob makes the load panic (process
abort) rather than return a decode-error result. -/
theorem c4_amended_load_failure_behavior (inflate : Str → Str × Bool) (zb name mbytes : Str)
    (fs : FS) (hbad : decodeMetadataList mbytes = none) :
    extract_file_from_local_zip inflate (some zb) name none fs = (.err .notFound, fs) ∧
    extract_file_from_local_zip inflate (some zb) name (some mbytes) fs = (.abort, fs) := by
  constructor
  · rfl
  · simp only [extract_file_from_local_zip, hbad]

/-- Witness for the amended C4 at a concrete malformed blob. -/
theorem c4_amended_witness :
    decodeMetadataList [255] = none ∧
    extract_file_from_local_zip inflId (some []) [97] none fs0 = (.err .notFound, fs0) ∧
    extract_file_from_local_zip inflId (some []) [97] (some [255]) fs0 = (.abort, fs0) :=
  ⟨by decide,
   (c4_amended_load_failure_behavior inflId [] [97] [255] fs0 (by decide)).1,
   (c4_amended_load_failure_behavior inflId [] [97] [255] fs0 (by decide)).2⟩

set_option maxRecDepth 10000 in
/-- C5: `save` does not truncate the metadata file
(`OpenOptions::new().create(true).write(true)` without `truncate(true)`), so
over a longer previous blob the resulting file content is the new blob plus
the stale tail of the old one — not exactly the serialized blob of the new
index, contradicting the overwrite claim. -/
theorem c5_save_keeps_stale_tail :
    save_central_directory_with_offsets arch0 (some [rec0])
        (some (encodeMetadataList [metaC, metaC]))
      = some (encodeMetadataList [meta0]
          ++ (encodeMetadataList [metaC, metaC]).drop (encodeMetadataList [meta0]).length) ∧
    writeNoTruncate (some (encodeMetadataList [metaC, metaC])) (encodeMetadataList [meta0])
      ≠ encodeMetadataList [meta0] := by
  exact ⟨by decide, by decide⟩

/-- C6 counterexample: when the range-fetch request fails (transport failure,
`net = false`), `download_bytes(..).await.unwrap()` panics — the run aborts,
no `NetworkError`-style error value is returned to the caller. -/
theorem c6_counterexample_fetch_failure_aborts :
    (extract_file_from_cloud_zip inflId false (some arch1) [97]
        (some (encodeMetadataList [meta1])) fs0).1 = .abort ∧
    (extract_file_from_cloud_zip inflId false (some arch1) [97]
        (some (encodeMetadataList [meta1])) fs0).1 ≠ .err .notFound ∧
    (extract_file_from_cloud_zip inflId false (some arch1) [97]
        (some (encodeMetadataList [meta1])) fs0).1 ≠ .err .other := by
  exact ⟨by decide, by decide, by decide⟩

/-- C6 amended: any failed range fetch — transport failure, missing object,
or out-of-range request — makes the remote extractor panic (process abort);
no error result reaches the caller. -/
theorem c6_amended_fetch_failure_aborts (inflate : Str → Str × Bool) (net : Bool)
    (obj : Option Str) (name mbytes : Str) (l : List FileMetadata) (meta : FileMetadata)
    (fs : FS)
    (hdec : decodeMetadataList mbytes = some l)
    (hfind : l.find? (fun m => m.file_name == name) = some meta)
    (hdl : download_bytes net obj meta.file_offset
        (meta.file_offset + meta.compressed_size) = none) :
    (extract_file_from_cloud_zip inflate net obj name (some mbytes) fs).1 = .abort := by
  simp only [extract_file_from_cloud_zip, hdec, hfind, hdl]

/-- Witness for the amended C6 with a concrete transport failure. -/
theorem c6_amended_witness :
    decodeMetadataList (encodeMetadataList [meta1]) = some [meta1] ∧
    download_bytes false (some arch1) meta1.file_offset
        (meta1.file_offset + meta1.compressed_size) = none ∧
    (extract_file_from_cloud_zip inflId false (some arch1) [97]
        (some (encodeMetadataList [meta1])) fs0).1 = .abort :=
  ⟨by decide, by decide,
   c6_amended_fetch_failure_aborts inflId false (some arch1) [97]
     (encodeMetadataList [meta1]) [meta1] meta1 fs0 (by decide) (by decide) (by decide)⟩

/-- C7: for every entry found in the index, the remote extractor issues
exactly one range request, for the inclusive byte range
`[file_offset, file_offset + compressed_size]`, and bounds the fetched bytes
to `compressed_size` before the decompression stage: two decoders that agree
on all inputs of length at most `compressed_size` make the whole extraction
agree, so no byte past the compressed payload is ever fed to the decoder. -/
theorem c7_single_bounded_range_request (inflate g : Str → Str × Bool) (net : Bool)
    (obj : Option Str) (name mbytes : Str) (l : List FileMetadata) (meta : FileMetadata)
    (fs : FS)
    (hdec : decodeMetadataList mbytes = some l)
    (hfind : l.find? (fun m => m.file_name == name) = some meta) :
    (extract_file_from_cloud_zip inflate net obj name (some mbytes) fs).2.2
      = [(meta.file_offset, meta.file_offset + meta.compressed_size)] ∧
    ((∀ s, s.length ≤ meta.compressed_size → g s = inflate s) →
      extract_file_from_cloud_zip g net obj name (some mbytes) fs
        = extract_file_from_cloud_zip inflate net obj name (some mbytes) fs) := by
  constructor
  · simp only [extract_file_from_cloud_zip, hdec, hfind]
    cases hdl : download_bytes net obj meta.file_offset
        (meta.file_offset + meta.compressed_size) with
    | none => rfl
    | some fetched => rfl
  · intro hg
    simp only [extract_file_from_cloud_zip, hdec, hfind]
    cases hdl : download_bytes net obj meta.file_offset
        (meta.file_offset + meta.compressed_size) with
    | none => rfl
    | some fetched =>
      dsimp only
      rw [hg (fetched.take meta.compressed_size)
        (by rw [List.length_take]; exact Nat.min_le_left _ _)]

/-- Witness for C7 at a concrete remote run. -/
theorem c7_single_bounded_range_request_witness :
    decodeMetadataList (encodeMetadataList [meta1]) = some [meta1] ∧
    [meta1].find? (fun m => m.file_name == [97]) = some meta1 ∧
    (extract_file_from_cloud_zip inflId true (some arch1) [97]
        (some (encodeMetadataList [meta1])) fs0).2.2
      = [(meta1.file_offset, meta1.file_offset + meta1.compressed_size)] :=
  ⟨by decide, by decide,
   (c7_single_bounded_range_request inflId inflId true (some arch1) [97]
     (encodeMetadataList [meta1]) [meta1] meta1 fs0 (by decide) (by decide)).1⟩

/-- C8: extracting a name absent from the loaded index returns a `NotFound`
error from both extractors and leaves the output filesystem completely
unchanged — no output file is created and any pre-existing file at the
derived path keeps its bytes. -/
theorem c8_missing_entry_no_output (inflate : Str → Str × Bool) (zb : Option Str)
    (net : Bool) (obj : Option Str) (name mbytes : Str) (l : List FileMetadata) (fs : FS)
    (hdec : decodeMetadataList mbytes = some l)
    (hfind : l.find? (fun m => m.file_name == name) = none) :
    extract_file_from_local_zip inflate zb name (some mbytes) fs = (.err .notFound, fs) ∧
    extract_file_from_cloud_zip inflate net obj name (some mbytes) fs
      = (.err .notFound, fs, []) := by
  constructor
  · cases zb with
    | none => rfl
    | some z => simp only [extract_file_from_local_zip, hdec, hfind]
  · simp only [extract_file_from_cloud_zip, hdec, hfind]

/-- Witness for C8: the name `"b"` is absent from the concrete index. -/
theorem c8_missing_entry_no_output_witness :
    decodeMetadataList (encodeMetadataList [meta1]) = some [meta1] ∧
    [meta1].find? (fun m => m.file_name == [98]) = none ∧
    extract_file_from_local_zip inflId (some arch1) [98]
        (some (encodeMetadataList [meta1])) fs0 = (.err .notFound, fs0) ∧
    extract_file_from_cloud_zip inflId true (some arch1) [98]
        (some (encodeMetadataList [meta1])) fs0 = (.err .notFound, fs0, []) :=
  ⟨by decide, by decide,
   (c8_missing_entry_no_output inflId (some arch1) true (some arch1) [98]
     (encodeMetadataList [meta1]) [meta1] fs0 (by decide) (by decide)).1,
   (c8_missing_entry_no_output inflId (some arch1) true (some arch1) [98]
     (encodeMetadataList [meta1]) [meta1] fs0 (by decide) (by decide)).2⟩

/-- C9: the builder aborts exactly when the archive's top-level directory
structure cannot be located (`ZipArchive::new` fails); otherwise it never
aborts on an unreadable member — the produced index consists of exactly the
members whose records parse, in archive order, each resolved by reading its
local header. -/
theorem c9_builder_drops_unreadable_members (bytes : Str) (cd : List CDRecord)
    (prev : Option Str) :
    save_central_directory_with_offsets bytes none prev = none ∧
    (save_central_directory_with_offsets bytes (some cd) prev).isSome = true ∧
    build_index bytes cd
      = (cd.filter (fun r => (by_index bytes r).isSome)).map
          (fun r => (by_index bytes r).getD mdefault) := by
  refine ⟨rfl, rfl, ?_⟩
  exact filterMap_as_filter_map (by_index bytes) mdefault cd

/-- C10: once the entry is found, both extractors create (and thereby
truncate) the output file at the derived path before reading any payload
bytes, so every failure after lookup — a failed remote fetch before any
payload arrived, or an invalid deflate stream locally or remotely — leaves
an empty or partially written file at the derived path, its content fixed by
the failure alone, destroying whatever file was there before. Extraction is
not atomic with respect to the output path. -/
theorem c10_output_truncated_before_payload (inflate : Str → Str × Bool) (z : Str)
    (net : Bool) (obj : Option Str) (name mbytes : Str) (l : List FileMetadata)
    (meta : FileMetadata) (out : Str) (fs : FS)
    (hdec : decodeMetadataList mbytes = some l)
    (hfind : l.find? (fun m => m.file_name == name) = some meta) :
    (inflate ((z.drop meta.file_offset).take meta.compressed_size) = (out, false) →
      (extract_file_from_local_zip inflate (some z) name (some mbytes) fs).1 = .err .other ∧
      (extract_file_from_local_zip inflate (some z) name (some mbytes) fs).2 (outBase ++ name)
        = some out) ∧
    (download_bytes net obj meta.file_offset (meta.file_offset + meta.compressed_size)
        = none →
      (extract_file_from_cloud_zip inflate net obj name (some mbytes) fs).1 = .abort ∧
      (extract_file_from_cloud_zip inflate net obj name (some mbytes) fs).2.1
          (outBase ++ name) = some []) ∧
    (∀ fetched,
      download_bytes net obj meta.file_offset (meta.file_offset + meta.compressed_size)
          = some fetched →
      inflate (fetched.take meta.compressed_size) = (out, false) →
      (extract_file_from_cloud_zip inflate net obj name (some mbytes) fs).1 = .err .other ∧
      (extract_file_from_cloud_zip inflate net obj name (some mbytes) fs).2.1
          (outBase ++ name) = some out) := by
  refine ⟨?_, ?_, ?_⟩
  · intro hinf
    simp only [extract_file_from_local_zip, hdec, hfind, hinf]
    simp [fsUpdate]
  · intro hdl
    simp only [extract_file_from_cloud_zip, hdec, hfind, hdl]
    simp [fsUpdate]
  · intro fetched hdl hinf
    simp only [extract_file_from_cloud_zip, hdec, hfind, hdl, hinf]
    simp [fsUpdate]

/-- Witness for C10: a failing decoder leaves its partial output `[5]` at the
derived path locally, and a transport failure leaves the freshly truncated
empty file remotely. -/
theorem c10_output_truncated_before_payload_witness :
    decodeMetadataList (encodeMetadataList [meta1]) = some [meta1] ∧
    (fun _ => (([5] : Str), false)) ((arch1.drop meta1.file_offset).take meta1.compressed_size)
      = (([5] : Str), false) ∧
    (extract_file_from_local_zip (fun _ => ([5], false)) (some arch1) [97]
        (some (encodeMetadataList [meta1])) fs0).2 (outBase ++ [97]) = some [5] ∧
    (extract_file_from_cloud_zip (fun _ => ([5], false)) false (some arch1) [97]
        (some (encodeMetadataList [meta1])) fs0).2.1 (outBase ++ [97]) = some [] :=
  ⟨by decide, by decide,
   ((c10_output_truncated_before_payload (fun _ => ([5], false)) arch1 false (some arch1)
       [97] (encodeMetadataList [meta1]) [meta1] meta1 [5] fs0
       (by decide) (by decide)).1 (by decide)).2,
   ((c10_output_truncated_before_payload (fun _ => ([5], false)) arch1 false (some arch1)
       [97] (encodeMetadataList [meta1]) [meta1] meta1 [5] fs0
       (by decide) (by decide)).2.1 (by decide)).2⟩
